import Mathlib

/-!
Verification development for the Mephisto core (Supervisor + TaskLauncher).

The definitions below are a shallow embedding of
`mephisto/core/supervisor.py` and `mephisto/core/task_launcher.py`.
Python objects become Lean structures; the mutable per-object state of
`AgentInfo` records (which are aliased between the `agents` and
`agents_by_registration_id` dicts in the source) is held in an explicit
heap of records keyed by `Nat` references, with both dicts mapping to
references.  Python `dict`s become association lists, `list.pop(i)`
becomes `List.eraseIdx`, and a Python `IndexError` / `KeyError` is an
`Option`/flagged failure.  External collaborators that are not part of
the two source files (the `TaskRun` reservation primitives, the
`AgentState` status enum, blueprint onboarding predicates, assignment
slots) are modelled from the specification, and are marked as such.
-/

namespace Mephisto

/-- Modelled from the spec: the `AgentState` status enum of
`mephisto/data_model/blueprint.py` (not under `src/`), per spec section 4.4:
`NONE`, `ONBOARDING`, `WAITING`, `IN_TASK`, `COMPLETED`, `DISCONNECT`,
`TIMEOUT`, `PARTNER_DISCONNECT`, `EXPIRED`. -/
inductive AgentStatus where
  | statusNone
  | onboarding
  | waiting
  | inTask
  | completed
  | disconnect
  | timeout
  | partnerDisconnect
  | expired
  deriving DecidableEq, Repr

/-- Modelled from the spec: the wire strings of the status enum
(`AgentState.STATUS_*` of `mephisto/data_model/blueprint.py`, not under
`src/`). -/
def AgentStatus.toWire : AgentStatus → String
  | .statusNone => "none"
  | .onboarding => "onboarding"
  | .waiting => "waiting"
  | .inTask => "in task"
  | .completed => "completed"
  | .disconnect => "disconnect"
  | .timeout => "timeout"
  | .partnerDisconnect => "partner disconnect"
  | .expired => "expired"

/-- Modelled from the spec: `AgentState.valid()` (not under `src/`) lists
every member of the status enum; parsing a wire string succeeds exactly on
valid statuses. -/
def AgentStatus.ofWire (s : String) : Option AgentStatus :=
  if s = "none" then some .statusNone
  else if s = "onboarding" then some .onboarding
  else if s = "waiting" then some .waiting
  else if s = "in task" then some .inTask
  else if s = "completed" then some .completed
  else if s = "disconnect" then some .disconnect
  else if s = "timeout" then some .timeout
  else if s = "partner disconnect" then some .partnerDisconnect
  else if s = "expired" then some .expired
  else none

/-- Modelled from the spec: `AgentState.complete()` (not under `src/`), the
runner-terminal status set containing `COMPLETED`, `DISCONNECT`, `TIMEOUT`,
`EXPIRED` (spec section 4.4). -/
def completeStatuses : List AgentStatus :=
  [.completed, .disconnect, .timeout, .expired]

/-- The `STATUS_TO_TEXT_MAP` dict at the top of `supervisor.py`, as an
association list in source order. -/
def STATUS_TO_TEXT_MAP : List (AgentStatus × String) :=
  [ (.expired,
      "This task is no longer available to be completed. " ++
      "Please return it and try a different task"),
    (.timeout,
      "You took to long to respond to this task, and have timed out. " ++
      "The task is no longer available, please return it."),
    (.disconnect,
      "You have disconnected from our server during the duration of the task. " ++
      "If you have done substantial work, please reach out to see if we can recover it. "),
    (.partnerDisconnect,
      "One of your partners has disconnected while working on this task. We won\x27t penalize " ++
      "you for them leaving, so please submit this task as is.") ]

/-- The fixed status-text map as written in spec section 6, stated
independently of the source dict so the two can be compared. -/
def specStatusText : AgentStatus → Option String
  | .expired => some ("This task is no longer available to be completed. " ++
      "Please return it and try a different task")
  | .timeout => some ("You took to long to respond to this task, and have timed out. " ++
      "The task is no longer available, please return it.")
  | .disconnect => some ("You have disconnected from our server during the duration of the task. " ++
      "If you have done substantial work, please reach out to see if we can recover it. ")
  | .partnerDisconnect => some ("One of your partners has disconnected while working on this task. We won\x27t penalize " ++
      "you for them leaving, so please submit this task as is.")
  | _ => none

/-- Association-list lookup with decidable key equality (a Python `dict`
access `d[k]`, `none` standing for `KeyError`). -/
def lookupKey {α : Type} {β : Type} [DecidableEq α] (k : α) :
    List (α × β) → Option β
  | [] => none
  | (k', v) :: rest => if k' = k then some v else lookupKey k rest

theorem lookupKey_cons {α β : Type} [DecidableEq α] (k k' : α) (v : β)
    (rest : List (α × β)) :
    lookupKey k ((k', v) :: rest) =
      if k' = k then some v else lookupKey k rest := rfl

end Mephisto

namespace Mephisto

/-! ## TaskLauncher (`mephisto/core/task_launcher.py`)

Units are identified by `Nat` db ids.  A unit's current DB status is
abstracted as a function `alive : Nat → Bool` holding during one pass of
the generator, where `alive u` means `u.get_status()` is `LAUNCHED` or
`ASSIGNED`.  -/

/-- The reap loop at the top of `generate_units`:

  for i in range(len(self.launched_units)):
      unit = self.launched_units[i]
      status = unit.get_status()
      if status != LAUNCHED and status != ASSIGNED:
          self.launched_units.pop(i)

`fuel` is the iteration count fixed up front by `range(len(...))`, `i` the
loop index, and the list shrinks under `pop`.  The returned flag is `false`
when the indexing raises `IndexError`, in which case the list at the time
of the error is returned. -/
def reapLoop (alive : Nat → Bool) : Nat → Nat → List Nat → List Nat × Bool
  | 0, _, l => (l, true)
  | fuel + 1, i, l =>
    match l[i]? with
    | none => (l, false)
    | some u =>
      if alive u then reapLoop alive fuel (i + 1) l
      else reapLoop alive fuel (i + 1) (l.eraseIdx i)

/-- One reap pass over `launched_units`. -/
def reap (alive : Nat → Bool) (l : List Nat) : List Nat × Bool :=
  reapLoop alive l.length 0 l

/-- State of the `generate_units` generator after part of a pass: the
`launched_units` and `unlaunched_units` lists, the units yielded so far in
yield order, and `ok = false` when a Python `IndexError` was raised. -/
structure PassResult where
  launched : List Nat
  unlaunched : List Nat
  yielded : List Nat
  ok : Bool
  deriving Repr, DecidableEq

/-- The yield loop of `generate_units`:

  num_avail_units = self.max_num_concurrent_units - len(self.launched_units)
  for i in range(len(self.unlaunched_units)):
      if i < num_avail_units:
          unit = self.unlaunched_units[i]
          self.launched_units.append(unit)
          self.unlaunched_units.pop(i)
          yield unit
      else:
          break

Returns the updated `launched_units` and `unlaunched_units`, with the units
yielded (in yield order) and the `IndexError` flag.  (Python computes
`num_avail` as a possibly negative int; since the loop guard is
`i < num_avail` with `i ≥ 0`, truncated `Nat` subtraction produces the same
behaviour.) -/
def yieldLoop (numAvail : Nat) :
    Nat → Nat → List Nat → List Nat → PassResult
  | 0, _, launched, unlaunched => ⟨launched, unlaunched, [], true⟩
  | fuel + 1, i, launched, unlaunched =>
    if i < numAvail then
      match unlaunched[i]? with
      | none => ⟨launched, unlaunched, [], false⟩
      | some u =>
        let r := yieldLoop numAvail fuel (i + 1)
          (launched ++ [u]) (unlaunched.eraseIdx i)
        { r with yielded := u :: r.yielded }
    else ⟨launched, unlaunched, [], true⟩

/-- One iteration of the `while True` body of `generate_units`: reap, then
yield up to `max_num_concurrent_units - len(launched_units)` units.  If the
reap raises, the generator dies before yielding anything. -/
def generatePass (alive : Nat → Bool) (maxConc : Nat)
    (launched unlaunched : List Nat) : PassResult :=
  let r := reap alive launched
  if r.2 then
    yieldLoop (maxConc - r.1.length) unlaunched.length 0 r.1 unlaunched
  else ⟨r.1, unlaunched, [], false⟩

/-- The full `generate_units` generator, driven for one pass per entry of
`alives` (unit statuses may change between passes; each entry is the status
table seen by that pass).  Terminates early when a pass raises or when
`unlaunched_units` is empty after a pass, like the source; ends with the
fuel list exhausted otherwise.  Returns final `launched_units`, final
`unlaunched_units`, all units yielded in order, and whether the run ended
without an uncaught `IndexError`. -/
def generateUnitsRun (maxConc : Nat) :
    List (Nat → Bool) → List Nat → List Nat → PassResult
  | [], launched, unlaunched => ⟨launched, unlaunched, [], true⟩
  | alive :: rest, launched, unlaunched =>
    let p := generatePass alive maxConc launched unlaunched
    if !p.ok then p
    else if p.unlaunched.isEmpty then p
    else
      let r := generateUnitsRun maxConc rest p.launched p.unlaunched
      { r with yielded := p.yielded ++ r.yielded }

/-- `_launch_limited_units` launches every unit the generator yields, in
order; the launch call sequence is exactly the yielded sequence. -/
def launchLimitedUnits (maxConc : Nat) (alives : List (Nat → Bool))
    (launched unlaunched : List Nat) : List Nat :=
  (generateUnitsRun maxConc alives launched unlaunched).yielded

end Mephisto

namespace Mephisto

/-! ### Lemmas about the launcher loops -/

theorem perm_cons_eraseIdx {l : List Nat} {i u : Nat} (h : l[i]? = some u) :
    l.Perm (u :: l.eraseIdx i) := by
  have h1 := (List.getElem?_eq_some.1 h).1
  have h2 := (List.getElem?_eq_some.1 h).2
  have step1 : l = l.take i ++ (u :: l.drop (i + 1)) := by
    conv_lhs => rw [(List.take_append_drop i l).symm]
    rw [List.drop_eq_getElem_cons h1, h2]
  rw [List.eraseIdx_eq_take_drop_succ]
  conv_lhs => rw [step1]
  exact List.perm_middle

theorem reapLoop_length_le (alive : Nat → Bool) :
    ∀ fuel i l, ((reapLoop alive fuel i l).1).length ≤ l.length := by
  intro fuel
  induction fuel with
  | zero => intro i l; simp [reapLoop]
  | succ n ih =>
    intro i l
    simp only [reapLoop]
    cases hu : l[i]? with
    | none => simp
    | some u =>
      by_cases ha : alive u = true
      · simpa [ha] using ih (i + 1) l
      · simp only [ha, if_false]
        exact le_trans (ih (i + 1) (l.eraseIdx i)) (List.length_eraseIdx_le l i)

theorem reapLoop_filter (alive : Nat → Bool) :
    ∀ fuel i l, fuel = l.length - i →
      (∀ u ∈ (l.drop i).dropLast, alive u = true) →
      reapLoop alive fuel i l = (l.take i ++ (l.drop i).filter alive, true) := by
  intro fuel
  induction fuel with
  | zero =>
    intro i l hf h
    have hi : l.length ≤ i := by omega
    simp [reapLoop, List.drop_of_length_le hi, List.take_of_length_le hi]
  | succ n ih =>
    intro i l hf h
    have hi : i < l.length := by omega
    have hu : l[i]? = some l[i] := List.getElem?_eq_getElem hi
    have hdropeq : l.drop i = l[i] :: l.drop (i + 1) := List.drop_eq_getElem_cons hi
    simp only [reapLoop, hu]
    by_cases ha : alive l[i] = true
    · rw [if_pos ha]
      have harg : ∀ u ∈ (l.drop (i + 1)).dropLast, alive u = true := by
        intro u hu2
        apply h
        rw [hdropeq]
        cases hd : l.drop (i + 1) with
        | nil => rw [hd] at hu2; simp at hu2
        | cons x t =>
          rw [List.dropLast_cons_of_ne_nil (by simp [hd])]
          rw [hd] at hu2
          exact List.mem_cons_of_mem _ hu2
      rw [ih (i + 1) l (by omega) harg]
      have htake : l.take (i + 1) = l.take i ++ [l[i]] := by
        rw [List.take_succ]
        simp [List.getElem?_eq_getElem hi]
      rw [hdropeq, List.filter_cons]
      simp only [ha, if_true]
      rw [htake]
      simp only [List.append_assoc, List.singleton_append]
    · rw [if_neg ha]
      have hdl : l.drop (i + 1) = [] := by
        by_contra hne
        apply ha
        apply h
        rw [hdropeq, List.dropLast_cons_of_ne_nil hne]
        exact List.mem_cons_self _ _
      have hlen : l.length = i + 1 := by
        have := List.drop_eq_nil_iff.1 hdl
        omega
      have hn : n = 0 := by omega
      subst hn
      simp only [reapLoop]
      have herase : l.eraseIdx i = l.take i := by
        rw [List.eraseIdx_eq_take_drop_succ, hdl]
        simp
      rw [herase, hdropeq, hdl]
      simp [List.filter_cons, ha]

theorem yieldLoop_spec (numAvail : Nat) :
    ∀ fuel i launched unlaunched,
      (yieldLoop numAvail fuel i launched unlaunched).launched
        = launched ++ (yieldLoop numAvail fuel i launched unlaunched).yielded ∧
      (yieldLoop numAvail fuel i launched unlaunched).yielded.length ≤ numAvail - i ∧
      unlaunched.Perm ((yieldLoop numAvail fuel i launched unlaunched).yielded
        ++ (yieldLoop numAvail fuel i launched unlaunched).unlaunched) := by
  intro fuel
  induction fuel with
  | zero => intro i launched unlaunched; simp [yieldLoop]
  | succ n ih =>
    intro i launched unlaunched
    simp only [yieldLoop]
    by_cases hi : i < numAvail
    · rw [if_pos hi]
      cases hu : unlaunched[i]? with
      | none => simp
      | some u =>
        simp only []
        obtain ⟨ihl, ihlen, ihperm⟩ := ih (i + 1) (launched ++ [u]) (unlaunched.eraseIdx i)
        refine ⟨?_, ?_, ?_⟩
        · simpa [List.append_assoc] using ihl
        · simp only [List.length_cons]
          omega
        · exact (perm_cons_eraseIdx hu).trans (ihperm.cons u)
    · rw [if_neg hi]; simp

end Mephisto

namespace Mephisto

theorem generatePass_spec (alive : Nat → Bool) (maxConc : Nat)
    (launched unlaunched : List Nat) :
    ∃ reaped : List Nat,
      (generatePass alive maxConc launched unlaunched).launched
        = reaped ++ (generatePass alive maxConc launched unlaunched).yielded ∧
      reaped.length ≤ launched.length ∧
      (generatePass alive maxConc launched unlaunched).yielded.length
        ≤ maxConc - reaped.length ∧
      unlaunched.Perm ((generatePass alive maxConc launched unlaunched).yielded
        ++ (generatePass alive maxConc launched unlaunched).unlaunched) := by
  have hlen : (reap alive launched).1.length ≤ launched.length := by
    simpa [reap] using reapLoop_length_le alive launched.length 0 launched
  by_cases hb : (reap alive launched).2 = true
  · have hy := yieldLoop_spec (maxConc - (reap alive launched).1.length)
      unlaunched.length 0 (reap alive launched).1 unlaunched
    refine ⟨(reap alive launched).1, ?_, hlen, ?_, ?_⟩
    · simp only [generatePass, hb, if_true]
      exact hy.1
    · simp only [generatePass, hb, if_true]
      simpa using hy.2.1
    · simp only [generatePass, hb, if_true]
      exact hy.2.2
  · refine ⟨(reap alive launched).1, ?_, hlen, ?_, ?_⟩ <;>
      simp [generatePass, hb]

theorem generateUnitsRun_spec (maxConc : Nat) :
    ∀ (alives : List (Nat → Bool)) (launched unlaunched : List Nat),
      (launched.length ≤ maxConc →
        (generateUnitsRun maxConc alives launched unlaunched).launched.length ≤ maxConc) ∧
      unlaunched.Perm ((generateUnitsRun maxConc alives launched unlaunched).yielded
        ++ (generateUnitsRun maxConc alives launched unlaunched).unlaunched) := by
  intro alives
  induction alives with
  | nil =>
    intro launched unlaunched
    exact ⟨fun h => h, by simp [generateUnitsRun]⟩
  | cons alive rest ih =>
    intro launched unlaunched
    obtain ⟨reaped, hla, hrlen, hylen, hperm⟩ :=
      generatePass_spec alive maxConc launched unlaunched
    have hplen : launched.length ≤ maxConc →
        (generatePass alive maxConc launched unlaunched).launched.length ≤ maxConc := by
      intro h
      rw [hla]
      simp only [List.length_append]
      omega
    simp only [generateUnitsRun]
    cases hok : (generatePass alive maxConc launched unlaunched).ok with
    | false => simpa [hok] using ⟨hplen, hperm⟩
    | true =>
      cases hemp : (generatePass alive maxConc launched unlaunched).unlaunched.isEmpty with
      | true => simpa [hok, hemp] using ⟨hplen, hperm⟩
      | false =>
        obtain ⟨ihlen, ihperm⟩ := ih (generatePass alive maxConc launched unlaunched).launched
          (generatePass alive maxConc launched unlaunched).unlaunched
        simp only [hok, hemp, Bool.not_true, if_false, Bool.false_eq_true]
        refine ⟨fun h => ihlen (hplen h), ?_⟩
        have step := hperm.trans (ihperm.append_left
          (generatePass alive maxConc launched unlaunched).yielded)
        simpa [List.append_assoc] using step

end Mephisto

namespace Mephisto

/-- C3: throughout any execution of `TaskLauncher.generate_units`, the size
of `launched_units` never exceeds `max_num_concurrent_units`.  Each pass
yields at most `avail = max_num_concurrent_units - |launched_units|` units,
appending each yielded unit to `launched_units`: the pass's launched list is
`reaped ++ yielded`, every intermediate state `reaped ++ yielded.take j` has
length at most the cap, and the bound is preserved over any sequence of
passes, so at most `max_num_concurrent_units` units are simultaneously in
states LAUNCHED or ASSIGNED. -/
theorem c3_launched_never_exceeds_cap (maxConc : Nat) :
    (∀ (alive : Nat → Bool) (launched unlaunched : List Nat),
      launched.length ≤ maxConc →
      ∃ reaped : List Nat,
        (generatePass alive maxConc launched unlaunched).launched
          = reaped ++ (generatePass alive maxConc launched unlaunched).yielded ∧
        ∀ j : Nat,
          (reaped ++ (generatePass alive maxConc launched unlaunched).yielded.take j).length
            ≤ maxConc) ∧
    (∀ (alives : List (Nat → Bool)) (launched unlaunched : List Nat),
      launched.length ≤ maxConc →
      (generateUnitsRun maxConc alives launched unlaunched).launched.length ≤ maxConc) := by
  constructor
  · intro alive launched unlaunched h
    obtain ⟨reaped, hla, hrlen, hylen, _⟩ :=
      generatePass_spec alive maxConc launched unlaunched
    refine ⟨reaped, hla, ?_⟩
    intro j
    have htake : ((generatePass alive maxConc launched unlaunched).yielded.take j).length
        = min j (generatePass alive maxConc launched unlaunched).yielded.length :=
      List.length_take j _
    simp only [List.length_append, htake]
    omega
  · intro alives launched unlaunched h
    exact (generateUnitsRun_spec maxConc alives launched unlaunched).1 h

theorem c3_witness :
    ([5] : List Nat).length ≤ 2 ∧
    (generateUnitsRun 2 [fun _ => true] [5] [6, 7]).launched.length ≤ 2 :=
  ⟨by decide, (c3_launched_never_exceeds_cap 2).2 [fun _ => true] [5] [6, 7] (by decide)⟩

/-- C9 (counterexample): the reap pass does NOT remove every out-of-state
unit for every possible content of `launched_units`.  With two consecutive
units that have both left LAUNCHED/ASSIGNED, the index-based scan-and-pop
raises `IndexError` after removing only the first (the `ok = false` flag),
instead of returning the filtered list. -/
theorem c9_reap_counterexample :
    reap (fun _ => false) [0, 1] = ([1], false) ∧
    reap (fun _ => false) [0, 1] ≠ (([0, 1] : List Nat).filter (fun _ => false), true) := by
  constructor
  · decide
  · decide

/-- C9 (amended): a reap pass removes exactly the units whose status is
neither LAUNCHED nor ASSIGNED, leaving the filtered list, only when every
unit except possibly the last one is still in those two states; with an
earlier unit out of those states the pass raises `IndexError`
(counterexample above). -/
theorem c9_reap_amended (alive : Nat → Bool) (l : List Nat)
    (h : ∀ u ∈ l.dropLast, alive u = true) :
    reap alive l = (l.filter alive, true) := by
  have := reapLoop_filter alive l.length 0 l (by omega) (by simpa using h)
  simpa [reap] using this

theorem c9_witness :
    (∀ u ∈ ([0, 1, 2] : List Nat).dropLast, (fun v => v != 2) u = true) ∧
    reap (fun v => v != 2) [0, 1, 2]
      = (([0, 1, 2] : List Nat).filter (fun v => v != 2), true) :=
  ⟨by decide, c9_reap_amended (fun v => v != 2) [0, 1, 2] (by decide)⟩

/-- C10: every unit initially placed in `unlaunched_units` is yielded by
`generate_units` at most once: the initial `unlaunched_units` is a
permutation of the yielded units together with the remaining
`unlaunched_units` (each yielded unit is removed in the same step it is
yielded), and when the initial units are distinct, `_launch_limited_units`
calls `unit.launch(url)` at most once per unit. -/
theorem c10_units_yielded_at_most_once (maxConc : Nat)
    (alives : List (Nat → Bool)) (launched unlaunched : List Nat)
    (h : unlaunched.Nodup) :
    unlaunched.Perm ((generateUnitsRun maxConc alives launched unlaunched).yielded
      ++ (generateUnitsRun maxConc alives launched unlaunched).unlaunched) ∧
    ∀ u : Nat, (launchLimitedUnits maxConc alives launched unlaunched).count u ≤ 1 := by
  have hperm := (generateUnitsRun_spec maxConc alives launched unlaunched).2
  refine ⟨hperm, ?_⟩
  intro u
  have e1 : unlaunched.count u
      = ((generateUnitsRun maxConc alives launched unlaunched).yielded
          ++ (generateUnitsRun maxConc alives launched unlaunched).unlaunched).count u :=
    hperm.count_eq u
  have e2 : ((generateUnitsRun maxConc alives launched unlaunched).yielded
        ++ (generateUnitsRun maxConc alives launched unlaunched).unlaunched).count u
      = (generateUnitsRun maxConc alives launched unlaunched).yielded.count u
        + (generateUnitsRun maxConc alives launched unlaunched).unlaunched.count u :=
    List.count_append u _ _
  have h1 : unlaunched.count u ≤ 1 := List.nodup_iff_count_le_one.1 h u
  simp only [launchLimitedUnits]
  omega

theorem c10_witness :
    ([7, 8] : List Nat).Nodup ∧
    (([7, 8] : List Nat).Perm ((generateUnitsRun 1 [fun _ => true] [] [7, 8]).yielded
      ++ (generateUnitsRun 1 [fun _ => true] [] [7, 8]).unlaunched) ∧
    ∀ u : Nat, (launchLimitedUnits 1 [fun _ => true] [] [7, 8]).count u ≤ 1) :=
  ⟨by decide, c10_units_yielded_at_most_once 1 [fun _ => true] [] [7, 8] (by decide)⟩

end Mephisto

namespace Mephisto

/-! ## Supervisor data model (`mephisto/core/supervisor.py`)

Agent db ids, registration ids, request ids and channel ids are `String`s.
Mutable `AgentInfo` records are aliased between `self.agents` and
`self.agents_by_registration_id` in the source, so they live in a heap
`infos : List (Nat × AgentInfo)` keyed by `Nat` references and both dicts
map to references. -/

/-- Modelled from the spec: the packet-type wire strings of
`mephisto/data_model/packet.py` (not under `src/`), per spec section 6. -/
def PACKET_TYPE_PROVIDER_DETAILS : String := "provider_details"

/-- Modelled from the spec: packet-type wire string (spec section 6). -/
def PACKET_TYPE_UPDATE_AGENT_STATUS : String := "update_agent_status"

/-- The system sender id constant `SYSTEM_CHANNEL_ID = "mephisto"`. -/
def SYSTEM_CHANNEL_ID : String := "mephisto"

/-- The `data` payload of the packets built by the supervisor handlers.
`providerDetails` carries `request_id`, `agent_id` (a JSON null when the
registration failed) and optional `onboard_data`; `updateAgentStatus`
carries the wire `status` string, `state.done_text` and `state.task_done`.
Other payloads are opaque to the handlers proved about here. -/
inductive PacketData where
  | providerDetails (request_id : String) (agent_id : Option String)
      (onboard_data : Option String)
  | updateAgentStatus (status : String) (done_text : Option String) (task_done : Bool)
  | raw (tag : String)
  deriving DecidableEq, Repr

/-- A `Packet`: `{packet_type, sender_id, receiver_id, data}`. -/
structure Packet where
  packet_type : String
  sender_id : String
  receiver_id : String
  data : PacketData
  deriving DecidableEq, Repr

/-- Observer: the `task_done` flag of an `UPDATE_AGENT_STATUS` payload. -/
def PacketData.taskDone : PacketData → Option Bool
  | .updateAgentStatus _ _ b => some b
  | _ => none

/-- The `AgentInfo` RecordClass with the wrapped agent's relevant state
flattened in: `agent_id` (the agent's db id), `db_status` and the
`has_updated_status` flag belong to the wrapped Agent object;
`used_channel_id` and `assignment_thread` are the record's own fields
(threads are identified by `Nat` handles). -/
structure AgentInfo where
  agent_id : String
  db_status : AgentStatus
  used_channel_id : String
  assignment_thread : Option Nat
  has_updated_status : Bool
  deriving DecidableEq, Repr

/-- Modelled from the spec: `Agent.update_status` (not under `src/`) records
the new `db_status` and flags `has_updated_status` so the control loop
pushes the change. -/
def AgentInfo.updateStatus (info : AgentInfo) (st : AgentStatus) : AgentInfo :=
  { info with db_status := st, has_updated_status := true }

/-- The supervisor state touched by the registration/status handlers:
the two agent indexes (mapping to heap references), the `AgentInfo` heap,
`onboarding_packets`, the outbound `message_queue`, and the record of
spawned thread handles (each `threading.Thread(...).start()` appends its
fresh handle). -/
structure Supervisor where
  agents : List (String × Nat)
  agents_by_registration_id : List (String × Nat)
  infos : List (Nat × AgentInfo)
  nextRef : Nat
  onboarding_packets : List (String × String)
  message_queue : List Packet
  spawned_threads : List Nat
  nextThread : Nat
  deriving DecidableEq, Repr

/-- The fields of a `NEW_AGENT` packet read by `_register_agent`:
`data["request_id"]` and `data["provider_data"]`'s `worker_id` and
`agent_registration_id`. -/
structure NewAgentArgs where
  request_id : String
  worker_id : String
  agent_registration_id : String
  deriving DecidableEq, Repr

/-- Modelled from the spec: per-unit claim state of the external `TaskRun`
(glossary: reserve / clear-reservation is an atomic claim-without-assigning
primitive; invariant I3: after `reserve_unit` succeeds no other registration
may be assigned that unit).  `reserved` is the reservation flag;
`assigned_agent` is the agent the provider's `AgentClass` bound to the
unit. -/
structure UnitInfo where
  reserved : Bool
  assigned_agent : Option String
  deriving DecidableEq, Repr

/-- Modelled from the spec: the unit table of the external `TaskRun`. -/
structure TaskRunState where
  units : List (Nat × UnitInfo)
  deriving DecidableEq, Repr

/-- Update the value at a key of an association list, if present. -/
def updateKey {α β : Type} [DecidableEq α] (k : α) (f : β → β) :
    List (α × β) → List (α × β)
  | [] => []
  | (k', v) :: rest =>
    if k' = k then (k', f v) :: rest else (k', v) :: updateKey k f rest

/-- Modelled from the spec: `task_run.reserve_unit(unit)` atomically claims
the unit, failing when it is already reserved or already has an agent. -/
def reserveUnit (tr : TaskRunState) (u : Nat) : Option TaskRunState :=
  match lookupKey u tr.units with
  | none => none
  | some ui =>
    if ui.reserved || ui.assigned_agent.isSome then none
    else some ⟨updateKey u (fun v => { v with reserved := true }) tr.units⟩

/-- Modelled from the spec: `task_run.clear_reservation(unit)` releases only
the reservation flag. -/
def clearReservation (tr : TaskRunState) (u : Nat) : TaskRunState :=
  ⟨updateKey u (fun v => { v with reserved := false }) tr.units⟩

/-- Modelled from the spec: `AgentClass.new_from_provider_data` binds the
freshly created agent to the unit it is being assigned. -/
def assignAgentToUnit (tr : TaskRunState) (u : Nat) (aid : String) : TaskRunState :=
  ⟨updateKey u (fun v => { v with assigned_agent := some aid }) tr.units⟩

/-- Whether `reserve_unit` would succeed on `u` in state `tr`. -/
def unitFree (tr : TaskRunState) (u : Nat) : Bool :=
  match lookupKey u tr.units with
  | none => false
  | some ui => !ui.reserved && ui.assigned_agent.isNone

/-- Modelled from the spec: the external collaborator behaviour consumed by
`_register_agent` / `_assign_unit_to_agent` (spec section 6 contracts):
`task_runner.is_concurrent`; the blueprint onboarding gate
(`isinstance(blueprint, OnboardingRequired) and blueprint.use_onboarding`),
the worker's disqualified/qualified state on the onboarding qualification,
and `blueprint.get_onboarding_data`; `task_run.get_valid_units_for_worker`;
`unit.get_assignment()` and `assignment.get_agents()` (a `none` slot entry
is a not-yet-filled slot). -/
structure Env where
  is_concurrent : Bool
  use_onboarding : Bool
  disqualified : String → Bool
  qualified : String → Bool
  valid_units : String → List Nat
  onboard_data : String → String
  assignment_of : Nat → Nat
  assignment_agents : Nat → List (Option String)

/-- Fresh agent db id for the `nextRef`-th created agent. -/
def mkAgentId (n : Nat) : String := "agent-" ++ toString n

/-- Fresh onboarding agent id for the `nextRef`-th created agent. -/
def mkOnboardId (n : Nat) : String := "onboarding-" ++ toString n

/-- Observable actions of the registration handlers, in program order. -/
inductive Event where
  | reserveAttempt (u : Nat) (ok : Bool)
  | reply (p : Packet)
  | installAgents (agent_id : String) (ref : Nat)
  | installByReg (registration_id : String) (ref : Nat)
  | clearedReservation (u : Nat)
  | setStatus (ref : Nat) (st : AgentStatus)
  | spawnThread (t : Nat)
  deriving DecidableEq, Repr

/-- A `PROVIDER_DETAILS` reply as built by the handlers: sender is the
system channel, receiver the requesting channel, and the data carries the
triggering packet's `request_id`. -/
def providerDetailsPacket (channel_id request_id : String)
    (agent_id : Option String) (onboard : Option String) : Packet :=
  { packet_type := PACKET_TYPE_PROVIDER_DETAILS
    sender_id := SYSTEM_CHANNEL_ID
    receiver_id := channel_id
    data := .providerDetails request_id agent_id onboard }

/-- The reservation loop of `_assign_unit_to_agent`:

  reserved_unit = None
  while len(units) > 0 and reserved_unit is None:
      unit = units.pop(0)
      reserved_unit = task_run.reserve_unit(unit)

Returns the reserved unit, the updated reservation state and the attempt
events in order.  A failed `reserve_unit` leaves the state unchanged. -/
def reserveLoop (tr : TaskRunState) :
    List Nat → Option Nat × TaskRunState × List Event
  | [] => (none, tr, [])
  | u :: rest =>
    match reserveUnit tr u with
    | some tr1 => (some u, tr1, [.reserveAttempt u true])
    | none =>
      let r := reserveLoop tr rest
      (r.1, r.2.1, .reserveAttempt u false :: r.2.2)

/-- The `[self.agents[a.db_id] for a in agents if a is not None]`
comprehension: resolve each filled slot to its heap reference through the
`agents` index; a missing agent id is a Python `KeyError` (`none`). -/
def participantRefs (agents : List (String × Nat)) :
    List (Option String) → Option (List Nat)
  | [] => some []
  | none :: rest => participantRefs agents rest
  | some a :: rest =>
    match lookupKey a agents with
    | none => none
    | some r =>
      match participantRefs agents rest with
      | none => none
      | some rs => some (r :: rs)

/-- The per-participant mutation of the concurrent launch loop:

  agent_info.agent.update_status(AgentState.STATUS_IN_TASK)
  agent_info.assignment_thread = assign_thread
-/
def inTaskUpdate (t : Nat) (info : AgentInfo) : AgentInfo :=
  { info.updateStatus .inTask with assignment_thread := some t }

/-- `_assign_unit_to_agent(packet, channel_info, units)` (supervisor.py
366-443): walk `units` reserving; on failure enqueue a `PROVIDER_DETAILS`
reply with `agent_id: None`; on success create the agent, enqueue the reply
with the new agent id, install the `AgentInfo` into `agents` and
`agents_by_registration_id`, clear the reservation, then either spawn a
unit thread (non-concurrent) or gate on the assignment slots (concurrent):
if a slot is unfilled set this agent `WAITING` and return, otherwise set
every participant `IN_TASK`, give them all the same thread handle, and
start that single thread.  The first component is `none` on an uncaught
`KeyError`; the event trace records program order. -/
def assignUnitToAgent (env : Env) (args : NewAgentArgs) (channel_id : String)
    (units : List Nat) (s : Supervisor) (tr : TaskRunState) :
    Option (Supervisor × TaskRunState) × List Event :=
  let rl := reserveLoop tr units
  match rl.1 with
  | none =>
    let p := providerDetailsPacket channel_id args.request_id none none
    (some ({ s with message_queue := s.message_queue ++ [p] }, rl.2.1),
      rl.2.2 ++ [.reply p])
  | some u =>
    let aid := mkAgentId s.nextRef
    let r := s.nextRef
    let tr2 := assignAgentToUnit rl.2.1 u aid
    let p := providerDetailsPacket channel_id args.request_id (some aid) none
    let info : AgentInfo :=
      { agent_id := aid, db_status := .statusNone, used_channel_id := channel_id,
        assignment_thread := none, has_updated_status := false }
    let s1 : Supervisor :=
      { s with nextRef := r + 1
               message_queue := s.message_queue ++ [p]
               infos := (r, info) :: s.infos
               agents := (aid, r) :: s.agents
               agents_by_registration_id :=
                 (args.agent_registration_id, r) :: s.agents_by_registration_id }
    let tr3 := clearReservation tr2 u
    let evs := rl.2.2 ++ [.reply p, .installAgents aid r,
      .installByReg args.agent_registration_id r, .clearedReservation u]
    if !env.is_concurrent then
      let t := s1.nextThread
      let s2 := { s1 with nextThread := t + 1
                          spawned_threads := s1.spawned_threads ++ [t]
                          infos := updateKey r
                            (fun i => { i with assignment_thread := some t }) s1.infos }
      (some (s2, tr3), evs ++ [.spawnThread t])
    else
      let slots := env.assignment_agents (env.assignment_of u)
      if none ∈ slots then
        let s2 := { s1 with
          infos := updateKey r (fun i => i.updateStatus .waiting) s1.infos }
        (some (s2, tr3), evs ++ [.setStatus r .waiting])
      else
        match participantRefs s1.agents slots with
        | none => (none, evs)
        | some refs =>
          let t := s1.nextThread
          let s2 := { s1 with nextThread := t + 1
                              spawned_threads := s1.spawned_threads ++ [t]
                              infos := refs.foldl
                                (fun h rf => updateKey rf (inTaskUpdate t) h) s1.infos }
          (some (s2, tr3),
            evs ++ refs.map (fun rf => Event.setStatus rf .inTask) ++ [.spawnThread t])

/-- `_register_agent(packet, channel_info)` (supervisor.py 489-585).
Reconnect branch: a known `agent_registration_id` only refreshes
`used_channel_id` (through the `agents` index, a `KeyError` if
inconsistent) and replies with the existing agent id.  New agents: fetch
valid units; when empty, enqueue an `agent_id: None` reply and FALL
THROUGH; then the onboarding gate (disqualified → `None` reply and return;
unqualified → create an OnboardingAgent, install it under the onboarding
id, remember the packet, reply with the onboarding id and data, spawn the
onboarding thread, set `ONBOARDING`, return); otherwise hand the units to
`_assign_unit_to_agent`. -/
def registerAgent (env : Env) (args : NewAgentArgs) (channel_id : String)
    (s : Supervisor) (tr : TaskRunState) :
    Option (Supervisor × TaskRunState) × List Event :=
  match lookupKey args.agent_registration_id s.agents_by_registration_id with
  | some ref =>
    match lookupKey ref s.infos with
    | none => (none, [])
    | some info =>
      match lookupKey info.agent_id s.agents with
      | none => (none, [])
      | some ref2 =>
        let s1 := { s with
          infos := updateKey ref2 (fun i => { i with used_channel_id := channel_id }) s.infos }
        let p := providerDetailsPacket channel_id args.request_id (some info.agent_id) none
        (some ({ s1 with message_queue := s1.message_queue ++ [p] }, tr), [.reply p])
  | none =>
    let units := env.valid_units args.worker_id
    let s1 :=
      if units.isEmpty then
        { s with message_queue := s.message_queue ++
            [providerDetailsPacket channel_id args.request_id none none] }
      else s
    if env.use_onboarding then
      if env.disqualified args.worker_id then
        let p := providerDetailsPacket channel_id args.request_id none none
        (some ({ s1 with message_queue := s1.message_queue ++ [p] }, tr), [.reply p])
      else if !env.qualified args.worker_id then
        let oid := mkOnboardId s1.nextRef
        let r := s1.nextRef
        let t := s1.nextThread
        let oinfo : AgentInfo :=
          { agent_id := oid, db_status := .onboarding, used_channel_id := channel_id,
            assignment_thread := some t, has_updated_status := true }
        let p := providerDetailsPacket channel_id args.request_id (some oid)
          (some (env.onboard_data args.worker_id))
        (some ({ s1 with nextRef := r + 1
                         infos := (r, oinfo) :: s1.infos
                         agents := (oid, r) :: s1.agents
                         onboarding_packets := (oid, args.request_id) :: s1.onboarding_packets
                         message_queue := s1.message_queue ++ [p]
                         nextThread := t + 1
                         spawned_threads := s1.spawned_threads ++ [t] }, tr),
          [.reply p, .installAgents oid r, .setStatus r .onboarding, .spawnThread t])
      else assignUnitToAgent env args channel_id units s1 tr
    else assignUnitToAgent env args channel_id units s1 tr

end Mephisto

namespace Mephisto

/-- One entry `(agent_id, status)` of `_handle_updated_agent_status`
(supervisor.py 710-742): skip invalid wire statuses, unknown agents,
agents with a pending outbound status, and server-reported `NONE` (which
only triggers a push, no mutation); for a differing status, skip when the
local status is terminal (`complete()`) or when the server claims
`COMPLETED`; otherwise adopt the server status via `update_status`. -/
def handleStatusEntry (s : Supervisor) (aid : String) (stWire : String) :
    Supervisor :=
  match AgentStatus.ofWire stWire with
  | none => s
  | some st =>
    match lookupKey aid s.agents with
    | none => s
    | some ref =>
      match lookupKey ref s.infos with
      | none => s
      | some info =>
        if info.has_updated_status then s
        else if st = .statusNone then s
        else if st ≠ info.db_status then
          if info.db_status ∈ completeStatuses then s
          else if st = .completed then s
          else { s with infos := updateKey ref (fun i => i.updateStatus st) s.infos }
        else s

/-- `_handle_updated_agent_status(status_map)`: fold the entries in map
order. -/
def handleUpdatedAgentStatus (statusMap : List (String × String))
    (s : Supervisor) : Supervisor :=
  statusMap.foldl (fun acc e => handleStatusEntry acc e.1 e.2) s

/-- `_send_status_update(agent_info)` (supervisor.py 662-681): the
`UPDATE_AGENT_STATUS` packet sent to the agent, with the current
`db_status`, `done_text` from `STATUS_TO_TEXT_MAP.get(...)`, and
`task_done` true exactly for `PARTNER_DISCONNECT`. -/
def sendStatusUpdate (info : AgentInfo) : Packet :=
  { packet_type := PACKET_TYPE_UPDATE_AGENT_STATUS
    sender_id := SYSTEM_CHANNEL_ID
    receiver_id := info.agent_id
    data := .updateAgentStatus info.db_status.toWire
      (lookupKey info.db_status STATUS_TO_TEXT_MAP)
      (decide (info.db_status = .partnerDisconnect)) }

/-- `_mark_agent_done(agent_info)` (supervisor.py 683-708): `none` when the
agent is already in `complete()` or `PARTNER_DISCONNECT`; otherwise the
`UPDATE_AGENT_STATUS` packet with status `"completed"`, the
manual-completion text and `task_done: true`. -/
def markAgentDone (info : AgentInfo) : Option Packet :=
  if info.db_status ∈ completeStatuses ++ [AgentStatus.partnerDisconnect] then none
  else some
    { packet_type := PACKET_TYPE_UPDATE_AGENT_STATUS
      sender_id := SYSTEM_CHANNEL_ID
      receiver_id := info.agent_id
      data := .updateAgentStatus "completed"
        (some "You have completed this task. Please submit.") true }

/-- `_try_send_agent_messages(agent_info)` (supervisor.py 637-647): drain
the agent's `pending_observations` through its channel; a failed send
reinserts the packet at the head of the queue and stops.  `send` is the
channel's outcome per packet; returns the packets sent in order and the
final queue. -/
def trySendAgentMessages (send : Packet → Bool) :
    List Packet → List Packet × List Packet
  | [] => ([], [])
  | p :: rest =>
    if send p then
      let r := trySendAgentMessages send rest
      (p :: r.1, r.2)
    else ([], p :: rest)

/-- `_send_message_queue()` (supervisor.py 649-660): drain the system
`message_queue`, routing each packet through
`self.channels[packet.receiver_id]` (`none` on a `KeyError`); a failed
send reinserts at the head and stops. -/
def sendMessageQueue (channels : List (String × (Packet → Bool))) :
    List Packet → Option (List Packet × List Packet)
  | [] => some ([], [])
  | p :: rest =>
    match lookupKey p.receiver_id channels with
    | none => none
    | some send =>
      if send p then
        match sendMessageQueue channels rest with
        | none => none
        | some r => some (p :: r.1, r.2)
      else some ([], p :: rest)

/-- Process a sequence of `NEW_AGENT` packets (each an args/channel pair)
through `_register_agent`, propagating any uncaught error. -/
def processNewAgents (env : Env) :
    List (NewAgentArgs × String) → Supervisor → TaskRunState →
    Option (Supervisor × TaskRunState)
  | [], s, tr => some (s, tr)
  | (args, ch) :: rest, s, tr =>
    match (registerAgent env args ch s tr).1 with
    | none => none
    | some str => processNewAgents env rest str.1 str.2

/-- The heap consistency the source maintains for a registered agent: the
registration id resolves through `agents_by_registration_id` to a live
`AgentInfo` whose `agent_id` is `aid`, and `aid` resolves through `agents`
to a live `AgentInfo` as well (in the source both dicts hold the very same
object). -/
def regBound (s : Supervisor) (reg aid : String) : Prop :=
  ∃ ref info, lookupKey reg s.agents_by_registration_id = some ref ∧
    lookupKey ref s.infos = some info ∧ info.agent_id = aid ∧
    ∃ ref2 info2, lookupKey aid s.agents = some ref2 ∧
      lookupKey ref2 s.infos = some info2

end Mephisto

namespace Mephisto

/-! ### Association-list and reservation lemmas -/

theorem lookupKey_updateKey_self {α β : Type} [DecidableEq α] (k : α)
    (f : β → β) : ∀ l : List (α × β),
    lookupKey k (updateKey k f l) = (lookupKey k l).map f := by
  intro l
  induction l with
  | nil => rfl
  | cons e rest ih =>
    obtain ⟨k', v⟩ := e
    by_cases h : k' = k
    · simp [updateKey, lookupKey, h]
    · simp [updateKey, lookupKey, h, ih]

theorem lookupKey_updateKey_ne {α β : Type} [DecidableEq α] {k k' : α}
    (f : β → β) (hne : k' ≠ k) : ∀ l : List (α × β),
    lookupKey k' (updateKey k f l) = lookupKey k' l := by
  intro l
  induction l with
  | nil => rfl
  | cons e rest ih =>
    obtain ⟨k0, v⟩ := e
    by_cases h : k0 = k
    · subst h
      simp [updateKey, lookupKey, Ne.symm hne]
    · simp [updateKey, lookupKey, h, ih]

theorem updateKey_keys {α β : Type} [DecidableEq α] (k : α) (f : β → β) :
    ∀ l : List (α × β), (updateKey k f l).map Prod.fst = l.map Prod.fst := by
  intro l
  induction l with
  | nil => rfl
  | cons e rest ih =>
    obtain ⟨k0, v⟩ := e
    by_cases h : k0 = k <;> simp [updateKey, h, ih]

theorem lookupKey_foldl_updateKey {β : Type} (f : β → β)
    (hf : ∀ x, f (f x) = f x) :
    ∀ (refs : List Nat) (h : List (Nat × β)) (r : Nat),
    lookupKey r (refs.foldl (fun acc rf => updateKey rf f acc) h)
      = if r ∈ refs then (lookupKey r h).map f else lookupKey r h := by
  intro refs
  induction refs with
  | nil => intro h r; simp
  | cons a rest ih =>
    intro h r
    simp only [List.foldl_cons]
    rw [ih (updateKey a f h) r]
    by_cases hmem : r ∈ rest
    · by_cases hra : r = a
      · subst hra
        simp [hmem, lookupKey_updateKey_self, Option.map_map]
        cases lookupKey r h with
        | none => rfl
        | some v => simp [Function.comp, hf]
      · simp [hmem, lookupKey_updateKey_ne f (Ne.symm (Ne.symm hra))]
    · by_cases hra : r = a
      · subst hra
        simp [hmem, lookupKey_updateKey_self]
      · simp [hmem, hra, lookupKey_updateKey_ne f hra]

theorem reserveUnit_of_free {tr : TaskRunState} {u : Nat}
    (h : unitFree tr u = true) :
    reserveUnit tr u
      = some ⟨updateKey u (fun v => { v with reserved := true }) tr.units⟩ := by
  unfold unitFree at h
  unfold reserveUnit
  cases hl : lookupKey u tr.units with
  | none => rw [hl] at h; simp at h
  | some ui =>
    rw [hl] at h
    simp only [Bool.and_eq_true, Bool.not_eq_true'] at h
    simp [h.1, Option.isNone_iff_eq_none.1 h.2]

theorem reserveUnit_of_not_free {tr : TaskRunState} {u : Nat}
    (h : unitFree tr u = false) : reserveUnit tr u = none := by
  unfold unitFree at h
  unfold reserveUnit
  cases hl : lookupKey u tr.units with
  | none => rfl
  | some ui =>
    rw [hl] at h
    by_cases hr : ui.reserved = true
    · simp [hr]
    · simp only [Bool.not_eq_true] at hr
      simp [hr] at h ⊢
      cases ha : ui.assigned_agent with
      | none => rw [ha] at h; simp at h
      | some a => simp

theorem reserveLoop_spec (tr : TaskRunState) : ∀ units : List Nat,
    (reserveLoop tr units).1 = units.find? (fun u => unitFree tr u) ∧
    ((reserveLoop tr units).1 = none → (reserveLoop tr units).2.1 = tr) ∧
    (∀ u, (reserveLoop tr units).1 = some u →
      (reserveLoop tr units).2.1
        = ⟨updateKey u (fun v => { v with reserved := true }) tr.units⟩) ∧
    (reserveLoop tr units).2.2
      = (units.takeWhile (fun u => !unitFree tr u)).map
          (fun u => Event.reserveAttempt u false)
        ++ (units.find? (fun u => unitFree tr u)).toList.map
          (fun u => Event.reserveAttempt u true) := by
  intro units
  induction units with
  | nil => exact ⟨rfl, fun _ => rfl, fun u h => by simp [reserveLoop] at h, rfl⟩
  | cons u rest ih =>
    by_cases hf : unitFree tr u = true
    · have hres := reserveUnit_of_free hf
      refine ⟨?_, ?_, ?_, ?_⟩ <;>
        simp [reserveLoop, hres, List.find?_cons, hf, List.takeWhile_cons]
    · have hfalse : unitFree tr u = false := by
        cases h : unitFree tr u
        · rfl
        · exact absurd h hf
      have hres := reserveUnit_of_not_free hfalse
      obtain ⟨ih1, ih2, ih3, ih4⟩ := ih
      refine ⟨?_, ?_, ?_, ?_⟩
      · simp [reserveLoop, hres, List.find?_cons, hfalse, ih1]
      · intro hnone
        simp only [reserveLoop, hres] at hnone ⊢
        exact ih2 hnone
      · intro v hv
        simp only [reserveLoop, hres] at hv ⊢
        exact ih3 v hv
      · simp [reserveLoop, hres, List.takeWhile_cons, hfalse, ih4, ih1]

end Mephisto

namespace Mephisto

/-- Observer: the payload of a reservation-attempt event. -/
def Event.reserveOutcome : Event → Option (Nat × Bool)
  | .reserveAttempt u ok => some (u, ok)
  | _ => none

theorem filterMap_reserveOutcome_fails (xs : List Nat) :
    List.filterMap (Event.reserveOutcome ∘ fun u => Event.reserveAttempt u false) xs
      = xs.map (fun u => (u, false)) := by
  induction xs with
  | nil => rfl
  | cons a rest ih => simp [Event.reserveOutcome, Function.comp, ih]

theorem filterMap_reserveOutcome_setStatus (rs : List Nat) :
    List.filterMap (Event.reserveOutcome ∘ fun rf => Event.setStatus rf AgentStatus.inTask) rs
      = [] := by
  induction rs with
  | nil => rfl
  | cons a rest ih => simp [Event.reserveOutcome, Function.comp, ih]

theorem takeWhile_of_find?_none {p : Nat → Bool} : ∀ {l : List Nat},
    l.find? p = none → l.takeWhile (fun u => !p u) = l := by
  intro l
  induction l with
  | nil => intro _; rfl
  | cons a rest ih =>
    intro h
    cases hp : p a with
    | true => simp [List.find?_cons, hp] at h
    | false =>
      simp only [List.find?_cons, hp] at h
      simp [List.takeWhile_cons, hp, ih h]

end Mephisto

namespace Mephisto

/-- C1: in `_assign_unit_to_agent` units are tried in list order and the
first `reserve_unit` success becomes the reserved unit (the trace of
reservation attempts is the failing prefix followed by the first free
unit); if no unit can be reserved the handler enqueues a
`PROVIDER_DETAILS` reply with `agent_id: None` and installs nothing;
`task_run.clear_reservation(unit)` happens only after the new `AgentInfo`
is installed in both the `agents` and `agents_by_registration_id`
indexes; and a unit is handed to at most one agent: once an attempt
reserves and installs a unit, no later reservation walk can reserve it
again. -/
theorem c1_assign_unit_to_agent (env : Env) (args : NewAgentArgs)
    (channel_id : String) (units : List Nat) (s : Supervisor)
    (tr : TaskRunState) :
    ((assignUnitToAgent env args channel_id units s tr).2.filterMap
        Event.reserveOutcome
      = (units.takeWhile (fun u => !unitFree tr u)).map (fun u => (u, false))
        ++ (units.find? (fun u => unitFree tr u)).toList.map (fun u => (u, true))) ∧
    (units.find? (fun u => unitFree tr u) = none →
      assignUnitToAgent env args channel_id units s tr
        = (some ({ s with message_queue := s.message_queue ++
              [providerDetailsPacket channel_id args.request_id none none] }, tr),
          units.map (fun u => Event.reserveAttempt u false)
            ++ [.reply (providerDetailsPacket channel_id args.request_id none none)])) ∧
    (∀ u, units.find? (fun v => unitFree tr v) = some u →
      ∃ pre post, (assignUnitToAgent env args channel_id units s tr).2
          = pre ++ [Event.installAgents (mkAgentId s.nextRef) s.nextRef,
              Event.installByReg args.agent_registration_id s.nextRef,
              Event.clearedReservation u] ++ post ∧
        Event.clearedReservation u ∉ pre) ∧
    (∀ u, units.find? (fun v => unitFree tr v) = some u →
      ∀ s1 tr1,
        (assignUnitToAgent env args channel_id units s tr).1 = some (s1, tr1) →
        unitFree tr1 u = false ∧
        ∀ units2 : List Nat, units2.find? (fun v => unitFree tr1 v) ≠ some u) := by
  obtain ⟨h1, h2, h3, h4⟩ := reserveLoop_spec tr units
  refine ⟨?_, ?_, ?_, ?_⟩
  · cases hfind : units.find? (fun v => unitFree tr v) with
    | none =>
      have hrl1 : (reserveLoop tr units).1 = none := by rw [h1, hfind]
      simp only [assignUnitToAgent, hrl1]
      simp [List.filterMap_append, h4, hfind, Event.reserveOutcome,
        filterMap_reserveOutcome_fails]
    | some u =>
      have hrl1 : (reserveLoop tr units).1 = some u := by rw [h1, hfind]
      simp only [assignUnitToAgent, hrl1]
      cases hc : env.is_concurrent with
      | false =>
        simp [hc, List.filterMap_append, h4, hfind, Event.reserveOutcome,
          filterMap_reserveOutcome_fails]
      | true =>
        by_cases hsl : none ∈ env.assignment_agents (env.assignment_of u)
        · simp [hc, hsl, List.filterMap_append, h4, hfind, Event.reserveOutcome,
            filterMap_reserveOutcome_fails]
        · cases hp : participantRefs ((mkAgentId s.nextRef, s.nextRef) :: s.agents)
              (env.assignment_agents (env.assignment_of u)) with
          | none =>
            simp [hc, hsl, hp, List.filterMap_append, h4, hfind,
              Event.reserveOutcome, filterMap_reserveOutcome_fails]
          | some refs =>
            simp [hc, hsl, hp, List.filterMap_append, h4, hfind,
              Event.reserveOutcome, filterMap_reserveOutcome_fails,
              filterMap_reserveOutcome_setStatus]
  · intro hfind
    have hrl1 : (reserveLoop tr units).1 = none := by rw [h1, hfind]
    have htw := takeWhile_of_find?_none hfind
    simp only [assignUnitToAgent, hrl1]
    rw [h2 hrl1, h4, hfind, htw]
    simp
  · intro u hfind
    have hrl1 : (reserveLoop tr units).1 = some u := by rw [h1, hfind]
    have hnotin : Event.clearedReservation u ∉ (reserveLoop tr units).2.2 ++
        [Event.reply (providerDetailsPacket channel_id args.request_id
          (some (mkAgentId s.nextRef)) none)] := by
      rw [h4, hfind]
      simp
    simp only [assignUnitToAgent, hrl1]
    cases hc : env.is_concurrent with
    | false =>
      refine ⟨(reserveLoop tr units).2.2 ++
        [Event.reply (providerDetailsPacket channel_id args.request_id
          (some (mkAgentId s.nextRef)) none)],
        [Event.spawnThread s.nextThread], ?_, hnotin⟩
      simp [hc, List.append_assoc]
    | true =>
      by_cases hsl : none ∈ env.assignment_agents (env.assignment_of u)
      · refine ⟨(reserveLoop tr units).2.2 ++
          [Event.reply (providerDetailsPacket channel_id args.request_id
            (some (mkAgentId s.nextRef)) none)],
          [Event.setStatus s.nextRef .waiting], ?_, hnotin⟩
        simp [hc, hsl, List.append_assoc]
      · cases hp : participantRefs ((mkAgentId s.nextRef, s.nextRef) :: s.agents)
            (env.assignment_agents (env.assignment_of u)) with
        | none =>
          refine ⟨(reserveLoop tr units).2.2 ++
            [Event.reply (providerDetailsPacket channel_id args.request_id
              (some (mkAgentId s.nextRef)) none)],
            [], ?_, hnotin⟩
          simp [hc, hsl, hp, List.append_assoc]
        | some refs =>
          refine ⟨(reserveLoop tr units).2.2 ++
            [Event.reply (providerDetailsPacket channel_id args.request_id
              (some (mkAgentId s.nextRef)) none)],
            refs.map (fun rf => Event.setStatus rf .inTask)
              ++ [Event.spawnThread s.nextThread], ?_, hnotin⟩
          simp [hc, hsl, hp, List.append_assoc]
  · intro u hfind s1 tr1 hres
    have hrl1 : (reserveLoop tr units).1 = some u := by rw [h1, hfind]
    have hfree : unitFree tr u = true := by
      have := List.find?_some hfind
      simpa using this
    have hrl21 := h3 u hrl1
    have htr1 : tr1 = clearReservation
        (assignAgentToUnit (reserveLoop tr units).2.1 u (mkAgentId s.nextRef)) u := by
      simp only [assignUnitToAgent, hrl1] at hres
      cases hc : env.is_concurrent with
      | false =>
        simp [hc] at hres
        exact hres.2.symm
      | true =>
        by_cases hsl : none ∈ env.assignment_agents (env.assignment_of u)
        · simp [hc, hsl] at hres
          exact hres.2.symm
        · cases hp : participantRefs ((mkAgentId s.nextRef, s.nextRef) :: s.agents)
              (env.assignment_agents (env.assignment_of u)) with
          | none => simp [hc, hsl, hp] at hres
          | some refs =>
            simp [hc, hsl, hp] at hres
            exact hres.2.symm
    have hlook : ∃ v, lookupKey u tr.units = some v := by
      unfold unitFree at hfree
      cases hl : lookupKey u tr.units with
      | none => rw [hl] at hfree; simp at hfree
      | some v => exact ⟨v, rfl⟩
    obtain ⟨v, hv⟩ := hlook
    have hfreeAfter : unitFree tr1 u = false := by
      rw [htr1, hrl21]
      simp [unitFree, clearReservation, assignAgentToUnit,
        lookupKey_updateKey_self, hv]
    refine ⟨hfreeAfter, ?_⟩
    intro units2 hfind2
    have := List.find?_some hfind2
    simp [hfreeAfter] at this

end Mephisto

namespace Mephisto

theorem c1_witness :
    (([0] : List Nat).find?
        (fun u => unitFree ⟨[(0, ⟨true, none⟩)]⟩ u) = none) ∧
    assignUnitToAgent
        ⟨false, false, fun _ => false, fun _ => true, fun _ => [],
          fun _ => "", fun _ => 0, fun _ => []⟩
        ⟨"r1", "w1", "reg1"⟩ "c1" [0]
        ⟨[], [], [], 0, [], [], [], 0⟩ ⟨[(0, ⟨true, none⟩)]⟩
      = (some ({ (⟨[], [], [], 0, [], [], [], 0⟩ : Supervisor) with
            message_queue := [providerDetailsPacket "c1" "r1" none none] },
          ⟨[(0, ⟨true, none⟩)]⟩),
        [Event.reserveAttempt 0 false,
          Event.reply (providerDetailsPacket "c1" "r1" none none)]) := by
  refine ⟨by decide, ?_⟩
  have h := (c1_assign_unit_to_agent
      ⟨false, false, fun _ => false, fun _ => true, fun _ => [],
        fun _ => "", fun _ => 0, fun _ => []⟩
      ⟨"r1", "w1", "reg1"⟩ "c1" [0]
      ⟨[], [], [], 0, [], [], [], 0⟩ ⟨[(0, ⟨true, none⟩)]⟩).2.1 (by decide)
  simpa using h

end Mephisto

namespace Mephisto

/-- C6: in the concurrent branch of `_assign_unit_to_agent`, after the new
agent is installed the handler fetches the assignment's agent slots.  If
any slot is still `None`, only the new agent's status is set to `WAITING`
(every other heap entry is untouched) and no thread is spawned; when all
slots are filled, every participating `AgentInfo` reachable through the
`agents` index gets status `IN_TASK` and one and the same thread handle,
and exactly one assignment thread is started. -/
theorem c6_concurrent_gating (env : Env) (args : NewAgentArgs)
    (channel_id : String) (units : List Nat) (s : Supervisor)
    (tr : TaskRunState) (u : Nat)
    (hconc : env.is_concurrent = true)
    (hfind : units.find? (fun v => unitFree tr v) = some u) :
    (none ∈ env.assignment_agents (env.assignment_of u) →
      ∃ s1 tr1,
        (assignUnitToAgent env args channel_id units s tr).1 = some (s1, tr1) ∧
        s1.spawned_threads = s.spawned_threads ∧
        s1.nextThread = s.nextThread ∧
        lookupKey s.nextRef s1.infos = some
          { agent_id := mkAgentId s.nextRef, db_status := .waiting,
            used_channel_id := channel_id, assignment_thread := none,
            has_updated_status := true } ∧
        (∀ r, r ≠ s.nextRef → lookupKey r s1.infos = lookupKey r s.infos)) ∧
    (∀ refs, none ∉ env.assignment_agents (env.assignment_of u) →
      participantRefs ((mkAgentId s.nextRef, s.nextRef) :: s.agents)
          (env.assignment_agents (env.assignment_of u)) = some refs →
      ∃ s1 tr1,
        (assignUnitToAgent env args channel_id units s tr).1 = some (s1, tr1) ∧
        s1.spawned_threads = s.spawned_threads ++ [s.nextThread] ∧
        (∀ r ∈ refs, lookupKey r s1.infos
          = (lookupKey r ((s.nextRef,
              { agent_id := mkAgentId s.nextRef, db_status := .statusNone,
                used_channel_id := channel_id, assignment_thread := none,
                has_updated_status := false }) :: s.infos)).map
              (inTaskUpdate s.nextThread)) ∧
        (∀ r, r ∉ refs → lookupKey r s1.infos
          = lookupKey r ((s.nextRef,
              { agent_id := mkAgentId s.nextRef, db_status := .statusNone,
                used_channel_id := channel_id, assignment_thread := none,
                has_updated_status := false }) :: s.infos))) := by
  have hrl1 : (reserveLoop tr units).1 = some u := by
    rw [(reserveLoop_spec tr units).1, hfind]
  constructor
  · intro hsl
    simp only [assignUnitToAgent, hrl1]
    simp only [hconc, Bool.not_true, Bool.false_eq_true, if_false, if_pos hsl]
    refine ⟨_, _, rfl, by simp, by simp, ?_, ?_⟩
    · simp only []
      rw [lookupKey_updateKey_self]
      simp [lookupKey, AgentInfo.updateStatus]
    · intro r hr
      simp only []
      rw [lookupKey_updateKey_ne _ hr]
      simp [lookupKey, Ne.symm hr]
  · intro refs hsl hpart
    simp only [assignUnitToAgent, hrl1]
    simp only [hconc, Bool.not_true, Bool.false_eq_true, if_false, if_neg hsl]
    simp only [hpart]
    refine ⟨_, _, rfl, by simp, ?_, ?_⟩
    · intro r hr
      simp only []
      rw [lookupKey_foldl_updateKey (inTaskUpdate s.nextThread) (fun x => rfl) refs _ r]
      simp [hr]
    · intro r hr
      simp only []
      rw [lookupKey_foldl_updateKey (inTaskUpdate s.nextThread) (fun x => rfl) refs _ r]
      simp [hr]

end Mephisto

namespace Mephisto

theorem c6_witness :
    ∃ s1 tr1,
      (assignUnitToAgent
        ⟨true, false, fun _ => false, fun _ => true, fun _ => [], fun _ => "",
          fun _ => 0, fun _ => [some "other", some "agent-1"]⟩
        ⟨"r1", "w1", "g1"⟩ "c1" [2]
        ⟨[("other", 0)], [("g0", 0)],
          [(0, ⟨"other", .waiting, "c0", none, false⟩)], 1, [], [], [], 5⟩
        ⟨[(2, ⟨false, none⟩)]⟩).1 = some (s1, tr1) ∧
      s1.spawned_threads = [5] := by
  obtain ⟨s1, tr1, hres, hsp, _, _⟩ :=
    (c6_concurrent_gating
      ⟨true, false, fun _ => false, fun _ => true, fun _ => [], fun _ => "",
        fun _ => 0, fun _ => [some "other", some "agent-1"]⟩
      ⟨"r1", "w1", "g1"⟩ "c1" [2]
      ⟨[("other", 0)], [("g0", 0)],
        [(0, ⟨"other", .waiting, "c0", none, false⟩)], 1, [], [], [], 5⟩
      ⟨[(2, ⟨false, none⟩)]⟩ 2 rfl (by decide)).2
      [0, 1] (by decide) (by decide)
  exact ⟨s1, tr1, hres, by simpa using hsp⟩

end Mephisto

namespace Mephisto

theorem registerAgent_reconnect_step (env : Env) (args : NewAgentArgs)
    (channel_id : String) (s : Supervisor) (tr : TaskRunState) (aid : String)
    (hb : regBound s args.agent_registration_id aid) :
    ∃ s1, (registerAgent env args channel_id s tr).1 = some (s1, tr) ∧
      s1.agents = s.agents ∧
      s1.agents_by_registration_id = s.agents_by_registration_id ∧
      s1.infos.map Prod.fst = s.infos.map Prod.fst ∧
      s1.onboarding_packets = s.onboarding_packets ∧
      s1.spawned_threads = s.spawned_threads ∧
      s1.message_queue = s.message_queue ++
        [providerDetailsPacket channel_id args.request_id (some aid) none] ∧
      regBound s1 args.agent_registration_id aid := by
  obtain ⟨ref, info, hreg, hinfo, hinfoaid, ref2, info2, hag, hinfo2⟩ := hb
  rw [← hinfoaid] at hag
  simp only [registerAgent, hreg, hinfo, hag]
  refine ⟨_, rfl, by simp, by simp, by simp [updateKey_keys], by simp, by simp,
    by simp [hinfoaid], ?_⟩
  by_cases href : ref = ref2
  · subst href
    refine ⟨ref, { info with used_channel_id := channel_id }, by simpa using hreg,
      ?_, by simpa using hinfoaid, ref,
      { info2 with used_channel_id := channel_id }, ?_, ?_⟩
    · simp only []
      rw [lookupKey_updateKey_self]
      simp [hinfo]
    · simp only []
      rw [← hinfoaid]
      simpa using hag
    · simp only []
      rw [lookupKey_updateKey_self]
      simp [hinfo2]
  · refine ⟨ref, info, by simpa using hreg, ?_, hinfoaid, ref2,
      { info2 with used_channel_id := channel_id }, ?_, ?_⟩
    · simp only []
      rw [lookupKey_updateKey_ne _ href]
      simpa using hinfo
    · simp only []
      rw [← hinfoaid]
      simpa using hag
    · simp only []
      rw [lookupKey_updateKey_self]
      simp [hinfo2]

end Mephisto

namespace Mephisto

/-- C2: for a `NEW_AGENT` packet whose `agent_registration_id` is already a
key of `agents_by_registration_id`, `_register_agent` creates no new
`AgentInfo` and reserves no unit: it only sets the existing `AgentInfo`'s
`used_channel_id` to the arriving channel's id and enqueues a
`PROVIDER_DETAILS` reply carrying the packet's `request_id` and the
existing agent's id, then returns; and for a sequence of `NEW_AGENT`
packets sharing a registration id bound to an installed `AgentInfo`, none
of them produces a new `AgentInfo` — the heap keys, both indexes and the
reservation state are unchanged and every reply returns the same agent
id. -/
theorem c2_reconnect_refreshes_channel_only (env : Env) :
    (∀ (args : NewAgentArgs) (channel_id : String) (s : Supervisor)
        (tr : TaskRunState) (ref : Nat) (info : AgentInfo) (ref2 : Nat),
      lookupKey args.agent_registration_id s.agents_by_registration_id = some ref →
      lookupKey ref s.infos = some info →
      lookupKey info.agent_id s.agents = some ref2 →
      registerAgent env args channel_id s tr
        = (some ({ s with
            infos := updateKey ref2
              (fun i => { i with used_channel_id := channel_id }) s.infos
            message_queue := s.message_queue ++
              [providerDetailsPacket channel_id args.request_id
                (some info.agent_id) none] },
            tr),
          [.reply (providerDetailsPacket channel_id args.request_id
            (some info.agent_id) none)])) ∧
    (∀ (reg aid : String) (pkts : List (NewAgentArgs × String))
        (s0 : Supervisor) (tr0 : TaskRunState),
      regBound s0 reg aid →
      (∀ e ∈ pkts, e.1.agent_registration_id = reg) →
      ∃ s' tr', processNewAgents env pkts s0 tr0 = some (s', tr') ∧
        s'.agents = s0.agents ∧
        s'.agents_by_registration_id = s0.agents_by_registration_id ∧
        s'.infos.map Prod.fst = s0.infos.map Prod.fst ∧
        tr' = tr0 ∧
        s'.message_queue = s0.message_queue ++
          pkts.map (fun e =>
            providerDetailsPacket e.2 e.1.request_id (some aid) none)) := by
  constructor
  · intro args channel_id s tr ref info ref2 h1 h2 h3
    simp only [registerAgent, h1, h2, h3]
  · intro reg aid pkts
    induction pkts with
    | nil =>
      intro s0 tr0 hb hall
      exact ⟨s0, tr0, rfl, rfl, rfl, rfl, rfl, by simp⟩
    | cons e rest ih =>
      intro s0 tr0 hb hall
      obtain ⟨args, ch⟩ := e
      have hhead : args.agent_registration_id = reg := hall (args, ch) (by simp)
      have hb' : regBound s0 args.agent_registration_id aid := by
        rw [hhead]; exact hb
      obtain ⟨s1, hres, ha, hbr, hkeys, _, _, hq, hb1⟩ :=
        registerAgent_reconnect_step env args ch s0 tr0 aid hb'
      have hb1' : regBound s1 reg aid := by rw [← hhead]; exact hb1
      obtain ⟨s', tr', hproc, ha', hbr', hkeys', htr', hq'⟩ :=
        ih s1 tr0 hb1' (fun x hx => hall x (by simp [hx]))
      refine ⟨s', tr', ?_, ha'.trans ha, hbr'.trans hbr, hkeys'.trans hkeys,
        htr', ?_⟩
      · simp only [processNewAgents, hres]
        exact hproc
      · rw [hq', hq]
        simp

end Mephisto

namespace Mephisto

theorem c2_witness :
    registerAgent
      ⟨false, false, fun _ => false, fun _ => true, fun _ => [], fun _ => "",
        fun _ => 0, fun _ => []⟩
      ⟨"r2", "w1", "reg1"⟩ "c2"
      ⟨[("a0", 0)], [("reg1", 0)], [(0, ⟨"a0", .waiting, "c0", none, false⟩)],
        1, [], [], [], 0⟩ ⟨[]⟩
      = (some ({ (⟨[("a0", 0)], [("reg1", 0)],
            [(0, ⟨"a0", .waiting, "c0", none, false⟩)],
            1, [], [], [], 0⟩ : Supervisor) with
          infos := updateKey 0 (fun i => { i with used_channel_id := "c2" })
            [(0, ⟨"a0", .waiting, "c0", none, false⟩)]
          message_queue := [] ++
            [providerDetailsPacket "c2" "r2" (some "a0") none] }, (⟨[]⟩ : TaskRunState)),
        [.reply (providerDetailsPacket "c2" "r2" (some "a0") none)]) := by
  have h := (c2_reconnect_refreshes_channel_only
      ⟨false, false, fun _ => false, fun _ => true, fun _ => [], fun _ => "",
        fun _ => 0, fun _ => []⟩).1
    ⟨"r2", "w1", "reg1"⟩ "c2"
    ⟨[("a0", 0)], [("reg1", 0)], [(0, ⟨"a0", .waiting, "c0", none, false⟩)],
      1, [], [], [], 0⟩ ⟨[]⟩
    0 ⟨"a0", .waiting, "c0", none, false⟩ 0 (by decide) (by decide) (by decide)
  simpa using h

end Mephisto

namespace Mephisto

theorem assignUnitToAgent_empty (env : Env) (args : NewAgentArgs)
    (channel_id : String) (s : Supervisor) (tr : TaskRunState) :
    assignUnitToAgent env args channel_id [] s tr
      = (some ({ s with message_queue := s.message_queue ++
            [providerDetailsPacket channel_id args.request_id none none] }, tr),
        [.reply (providerDetailsPacket channel_id args.request_id none none)]) := rfl

/-- C5: when `_register_agent` sees an unknown registration id and
`get_valid_units_for_worker` returns no units, it enqueues a
`PROVIDER_DETAILS` reply with `agent_id: None` and then CONTINUES into the
onboarding checks instead of returning, so a second reply — an onboarding
reply or another `agent_id: None` reply — is enqueued for the same
`request_id`. -/
theorem c5_no_units_double_reply (env : Env) (args : NewAgentArgs)
    (channel_id : String) (s : Supervisor) (tr : TaskRunState)
    (hreg : lookupKey args.agent_registration_id
      s.agents_by_registration_id = none)
    (hunits : env.valid_units args.worker_id = []) :
    ∃ s1 tr1 p2,
      (registerAgent env args channel_id s tr).1 = some (s1, tr1) ∧
      tr1 = tr ∧
      s1.message_queue = s.message_queue ++
        [providerDetailsPacket channel_id args.request_id none none, p2] ∧
      ∃ a ob, p2 = providerDetailsPacket channel_id args.request_id a ob := by
  simp only [registerAgent, hreg, hunits, List.isEmpty_nil, if_true]
  cases ho : env.use_onboarding with
  | false =>
    rw [if_neg (by simp)]
    rw [assignUnitToAgent_empty]
    exact ⟨_, _, providerDetailsPacket channel_id args.request_id none none,
      rfl, rfl, by simp, none, none, rfl⟩
  | true =>
    rw [if_pos rfl]
    cases hd : env.disqualified args.worker_id with
    | true =>
      rw [if_pos rfl]
      exact ⟨_, _, providerDetailsPacket channel_id args.request_id none none,
        rfl, rfl, by simp, none, none, rfl⟩
    | false =>
      rw [if_neg (by simp)]
      cases hq : env.qualified args.worker_id with
      | false =>
        rw [if_pos (by simp)]
        refine ⟨_, _, providerDetailsPacket channel_id args.request_id
          (some (mkOnboardId s.nextRef))
          (some (env.onboard_data args.worker_id)),
          rfl, rfl, by simp, some (mkOnboardId s.nextRef),
          some (env.onboard_data args.worker_id), rfl⟩
      | true =>
        rw [if_neg (by simp)]
        rw [assignUnitToAgent_empty]
        exact ⟨_, _, providerDetailsPacket channel_id args.request_id none none,
          rfl, rfl, by simp, none, none, rfl⟩

end Mephisto

namespace Mephisto

theorem c5_witness :
    (lookupKey "regX"
      ((⟨[], [], [], 0, [], [], [], 0⟩ : Supervisor).agents_by_registration_id)
        = none) ∧
    ((⟨false, false, fun _ => false, fun _ => true, fun _ => [], fun _ => "",
        fun _ => 0, fun _ => []⟩ : Env).valid_units "w5" = []) ∧
    ∃ s1 tr1 p2,
      (registerAgent
        ⟨false, false, fun _ => false, fun _ => true, fun _ => [], fun _ => "",
          fun _ => 0, fun _ => []⟩
        ⟨"r5", "w5", "regX"⟩ "c5" ⟨[], [], [], 0, [], [], [], 0⟩ ⟨[]⟩).1
          = some (s1, tr1) ∧
      tr1 = (⟨[]⟩ : TaskRunState) ∧
      s1.message_queue = ([] : List Packet) ++
        [providerDetailsPacket "c5" "r5" none none, p2] ∧
      ∃ a ob, p2 = providerDetailsPacket "c5" "r5" a ob :=
  ⟨by decide, rfl,
    c5_no_units_double_reply
      ⟨false, false, fun _ => false, fun _ => true, fun _ => [], fun _ => "",
        fun _ => 0, fun _ => []⟩
      ⟨"r5", "w5", "regX"⟩ "c5" ⟨[], [], [], 0, [], [], [], 0⟩ ⟨[]⟩
      (by decide) rfl⟩

end Mephisto

namespace Mephisto

theorem handleStatusEntry_cases (s : Supervisor) (aid stW : String) :
    handleStatusEntry s aid stW = s ∨
    ∃ ref0 info0 st, lookupKey ref0 s.infos = some info0 ∧
      info0.db_status ∉ completeStatuses ∧ st ≠ AgentStatus.completed ∧
      handleStatusEntry s aid stW
        = { s with
            infos := updateKey ref0 (fun i => i.updateStatus st) s.infos } := by
  unfold handleStatusEntry
  split
  · exact Or.inl rfl
  next st heq =>
    split
    · exact Or.inl rfl
    next ref0 heq2 =>
      split
      · exact Or.inl rfl
      next info0 heq3 =>
        split
        · exact Or.inl rfl
        · split
          · exact Or.inl rfl
          · split
            · split
              · exact Or.inl rfl
              · split
                · exact Or.inl rfl
                next hnc hst =>
                  exact Or.inr ⟨ref0, info0, st, heq3, hnc, hst, rfl⟩
            · exact Or.inl rfl

theorem handleStatusEntry_preserves (s : Supervisor) (aid stW : String)
    (r : Nat) (info : AgentInfo) (h : lookupKey r s.infos = some info) :
    ∃ info', lookupKey r (handleStatusEntry s aid stW).infos = some info' ∧
      (info.db_status ∈ completeStatuses → info' = info) ∧
      (info'.db_status = .completed → info.db_status = .completed) := by
  rcases handleStatusEntry_cases s aid stW with hcase |
    ⟨ref0, info0, st, hl0, hnc, hnst, hcase⟩
  · rw [hcase]
    exact ⟨info, h, fun _ => rfl, fun x => x⟩
  · rw [hcase]
    by_cases hr : r = ref0
    · subst hr
      have hinfoeq : info0 = info := by
        rw [h] at hl0
        exact Option.some.injEq _ _ ▸ hl0.symm ▸ rfl
      refine ⟨info.updateStatus st, ?_, ?_, ?_⟩
      · simp only []
        rw [lookupKey_updateKey_self, h]
        rfl
      · intro ht
        rw [hinfoeq] at hnc
        exact absurd ht hnc
      · intro hc
        exact absurd hc hnst
    · refine ⟨info, ?_, fun _ => rfl, fun x => x⟩
      simp only []
      rw [lookupKey_updateKey_ne _ hr]
      exact h

/-- C4: `_handle_updated_agent_status` never moves an agent out of a
`complete()` terminal state — an entry whose local status is terminal
leaves the `AgentInfo` untouched — and a server-reported `COMPLETED` is
never adopted: an agent whose status is `COMPLETED` after the handler was
already `COMPLETED` before. -/
theorem c4_terminal_states_preserved (statusMap : List (String × String))
    (s : Supervisor) :
    ∀ (r : Nat) (info : AgentInfo), lookupKey r s.infos = some info →
      ∃ info',
        lookupKey r (handleUpdatedAgentStatus statusMap s).infos = some info' ∧
        (info.db_status ∈ completeStatuses → info' = info) ∧
        (info'.db_status = .completed → info.db_status = .completed) := by
  induction statusMap generalizing s with
  | nil =>
    intro r info h
    exact ⟨info, h, fun _ => rfl, fun x => x⟩
  | cons e rest ih =>
    intro r info h
    obtain ⟨info1, h1, hterm1, hcomp1⟩ :=
      handleStatusEntry_preserves s e.1 e.2 r info h
    obtain ⟨info2, h2, hterm2, hcomp2⟩ :=
      ih (handleStatusEntry s e.1 e.2) r info1 h1
    refine ⟨info2, ?_, ?_, fun hc => hcomp1 (hcomp2 hc)⟩
    · simpa [handleUpdatedAgentStatus] using h2
    · intro ht
      have e1 : info1 = info := hterm1 ht
      have e2 : info2 = info1 := hterm2 (by rw [e1]; exact ht)
      exact e2.trans e1

theorem c4_witness :
    (lookupKey 0 ((⟨[("a0", 0)], [], [(0, ⟨"a0", .completed, "c0", none, false⟩)],
        1, [], [], [], 0⟩ : Supervisor).infos)
      = some ⟨"a0", .completed, "c0", none, false⟩) ∧
    ∃ info',
      lookupKey 0 ((handleUpdatedAgentStatus [("a0", "in task")]
        ⟨[("a0", 0)], [], [(0, ⟨"a0", .completed, "c0", none, false⟩)],
          1, [], [], [], 0⟩).infos) = some info' ∧
      ((⟨"a0", .completed, "c0", none, false⟩ : AgentInfo).db_status
          ∈ completeStatuses → info' = ⟨"a0", .completed, "c0", none, false⟩) ∧
      (info'.db_status = .completed →
        (⟨"a0", .completed, "c0", none, false⟩ : AgentInfo).db_status
          = .completed) :=
  ⟨by decide,
    c4_terminal_states_preserved [("a0", "in task")]
      ⟨[("a0", 0)], [], [(0, ⟨"a0", .completed, "c0", none, false⟩)],
        1, [], [], [], 0⟩ 0 ⟨"a0", .completed, "c0", none, false⟩ (by decide)⟩

end Mephisto

namespace Mephisto

/-- C7: every `UPDATE_AGENT_STATUS` packet built by `_send_status_update`
carries the agent's current `db_status`, a `done_text` equal to the fixed
status-text map's entry for that status (verified against the map as
spelled in the spec), and `task_done` true if and only if the status is
`PARTNER_DISCONNECT`; every packet `_mark_agent_done` sends carries status
`"completed"`, the manual-completion text and `task_done: true`. -/
theorem c7_status_update_contents (info : AgentInfo) :
    (sendStatusUpdate info).packet_type = PACKET_TYPE_UPDATE_AGENT_STATUS ∧
    (sendStatusUpdate info).data
      = PacketData.updateAgentStatus info.db_status.toWire
          (specStatusText info.db_status)
          (decide (info.db_status = AgentStatus.partnerDisconnect)) ∧
    ((sendStatusUpdate info).data.taskDone = some true ↔
      info.db_status = .partnerDisconnect) ∧
    (∀ p, markAgentDone info = some p →
      p.packet_type = PACKET_TYPE_UPDATE_AGENT_STATUS ∧
      p.data = PacketData.updateAgentStatus "completed"
        (some "You have completed this task. Please submit.") true ∧
      p.data.taskDone = some true) := by
  obtain ⟨aid, st, ch, th, fl⟩ := info
  refine ⟨rfl, ?_, ?_, ?_⟩
  · cases st <;> rfl
  · cases st <;> simp [sendStatusUpdate, PacketData.taskDone]
  · intro p hp
    cases st <;> simp [markAgentDone, completeStatuses] at hp <;>
      (subst hp; exact ⟨rfl, rfl, rfl⟩)

theorem c7_witness :
    (markAgentDone ⟨"a1", .inTask, "c", none, false⟩
      = some ⟨PACKET_TYPE_UPDATE_AGENT_STATUS, SYSTEM_CHANNEL_ID, "a1",
          .updateAgentStatus "completed"
            (some "You have completed this task. Please submit.") true⟩) ∧
    ((⟨PACKET_TYPE_UPDATE_AGENT_STATUS, SYSTEM_CHANNEL_ID, "a1",
        .updateAgentStatus "completed"
          (some "You have completed this task. Please submit.") true⟩ : Packet).data
      = PacketData.updateAgentStatus "completed"
          (some "You have completed this task. Please submit.") true) :=
  ⟨by decide,
    ((c7_status_update_contents ⟨"a1", .inTask, "c", none, false⟩).2.2.2 _
      (by decide)).2.1⟩

/-- C8: both drains send packets in FIFO order and obey the backpressure
rule: the packets sent form a prefix of the queue, each of them accepted
by its channel; when a send fails the packet is reinserted at the head,
the drain stops, and the queue afterwards is exactly the unsent suffix in
its original order (and its head is the packet whose send failed).  This
holds for an agent's `pending_observations`
(`_try_send_agent_messages`) and for the system `message_queue` routed by
`receiver_id` (`_send_message_queue`). -/
theorem c8_drains_fifo_with_backpressure :
    (∀ (send : Packet → Bool) (q : List Packet),
      ∃ k, trySendAgentMessages send q = (q.take k, q.drop k) ∧
        (∀ p ∈ q.take k, send p = true) ∧
        (∀ p, (q.drop k).head? = some p → send p = false)) ∧
    (∀ (channels : List (String × (Packet → Bool))) (q : List Packet),
      (∀ p ∈ q, (lookupKey p.receiver_id channels).isSome) →
      ∃ k, sendMessageQueue channels q = some (q.take k, q.drop k) ∧
        (∀ p ∈ q.take k, ∀ f, lookupKey p.receiver_id channels = some f →
          f p = true) ∧
        (∀ p, (q.drop k).head? = some p →
          ∀ f, lookupKey p.receiver_id channels = some f → f p = false)) := by
  constructor
  · intro send q
    induction q with
    | nil => exact ⟨0, rfl, by simp, by simp⟩
    | cons p rest ih =>
      cases hs : send p with
      | false =>
        refine ⟨0, ?_, by simp, ?_⟩
        · simp [trySendAgentMessages, hs]
        · intro p' hp'
          simp only [List.drop_zero, List.head?_cons, Option.some.injEq] at hp'
          rw [← hp']
          exact hs
      | true =>
        obtain ⟨k, hk, hsent, hfail⟩ := ih
        refine ⟨k + 1, ?_, ?_, ?_⟩
        · simp [trySendAgentMessages, hs, hk]
        · intro p' hp'
          simp only [List.take_succ_cons, List.mem_cons] at hp'
          rcases hp' with hp' | hp'
          · rw [hp']; exact hs
          · exact hsent p' hp'
        · intro p' hp'
          exact hfail p' hp'
  · intro channels q
    induction q with
    | nil => intro _; exact ⟨0, rfl, by simp, by simp⟩
    | cons p rest ih =>
      intro hall
      have hp := hall p (by simp)
      cases hl : lookupKey p.receiver_id channels with
      | none => rw [hl] at hp; simp at hp
      | some f =>
        cases hs : f p with
        | false =>
          refine ⟨0, ?_, by simp, ?_⟩
          · simp [sendMessageQueue, hl, hs]
          · intro p' hp' f' hf'
            simp only [List.drop_zero, List.head?_cons, Option.some.injEq] at hp'
            rw [← hp'] at hf' ⊢
            rw [hl] at hf'
            injection hf' with hff
            rw [← hff]
            exact hs
        | true =>
          obtain ⟨k, hk, hsent, hfail⟩ := ih (fun x hx => hall x (by simp [hx]))
          refine ⟨k + 1, ?_, ?_, ?_⟩
          · simp [sendMessageQueue, hl, hs, hk]
          · intro p' hp' f' hf'
            simp only [List.take_succ_cons, List.mem_cons] at hp'
            rcases hp' with hp' | hp'
            · rw [hp'] at hf' ⊢
              rw [hl] at hf'
              injection hf' with hff
              rw [← hff]
              exact hs
            · exact hsent p' hp' f' hf'
          · intro p' hp'
            exact hfail p' hp'

theorem c8_witness :
    (∀ p ∈ [(⟨"t", "s", "c1", .raw "x"⟩ : Packet)],
      (lookupKey p.receiver_id
        [("c1", fun (_ : Packet) => true)]).isSome) ∧
    ∃ k, sendMessageQueue [("c1", fun (_ : Packet) => true)]
        [(⟨"t", "s", "c1", .raw "x"⟩ : Packet)]
        = some (([(⟨"t", "s", "c1", .raw "x"⟩ : Packet)]).take k,
            ([(⟨"t", "s", "c1", .raw "x"⟩ : Packet)]).drop k) ∧
      (∀ p ∈ ([(⟨"t", "s", "c1", .raw "x"⟩ : Packet)]).take k,
        ∀ f, lookupKey p.receiver_id [("c1", fun (_ : Packet) => true)] = some f →
          f p = true) ∧
      (∀ p, (([(⟨"t", "s", "c1", .raw "x"⟩ : Packet)]).drop k).head? = some p →
        ∀ f, lookupKey p.receiver_id [("c1", fun (_ : Packet) => true)] = some f →
          f p = false) :=
  ⟨by simp [lookupKey], c8_drains_fifo_with_backpressure.2
    [("c1", fun (_ : Packet) => true)] [⟨"t", "s", "c1", .raw "x"⟩]
    (by simp [lookupKey])⟩

end Mephisto
